import Mathlib

/-!
Verification of the `GasAdjuster` configurable-parameters module
(`core/server/src/eth_sender/gas_adjuster/parameters.rs`).

The module exposes two public accessors, `get_max_price_interval` and
`get_max_price_scale`, which delegate to one of two `parameters_impl`
modules chosen at compile time: the non-test one reads environment
variables through `parse_env`, the test one returns hard-coded constants
(zero duration and 1.5).

Embedding choices:
* the process environment is a partial map from variable names to strings;
* the compile-time `#[cfg(test)]` selection becomes a `SourceVariant`
  parameter fixed for all calls of one process;
* `f64` values are only parsed and passed through unchanged here, never
  computed with, so the value space of finite decimal literals is embedded
  exactly as rationals;
* the fallible environment read/parse is `Except Misconfiguration`.
-/

namespace GasAdjusterParams

/-- The process environment: a partial map from variable names to values. -/
def Env : Type := String → Option String

/-- The single error kind of this layer: a setting is absent from the
environment, or present but not parseable as the expected numeric type. -/
inductive Misconfiguration where
  | missing (name : String) : Misconfiguration
  | malformed (name : String) (value : String) : Misconfiguration
deriving DecidableEq, Repr

/-- `std::time::Duration`, restricted to what `Duration::from_secs`
produces: whole seconds plus a nanosecond part. -/
structure Duration where
  secs : Nat
  nanos : Nat
deriving DecidableEq, Repr

/-- `Duration::from_secs`: a duration of exactly `n` whole seconds. -/
def Duration.from_secs (n : Nat) : Duration := ⟨n, 0⟩

instance {ε α : Type} [DecidableEq ε] [DecidableEq α] :
    DecidableEq (Except ε α) := fun a b =>
  match a, b with
  | .error e, .error f =>
    if h : e = f then .isTrue (congrArg Except.error h)
    else .isFalse (fun hh => h (Except.error.inj hh))
  | .ok x, .ok y =>
    if h : x = y then .isTrue (congrArg Except.ok h)
    else .isFalse (fun hh => h (Except.ok.inj hh))
  | .error _, .ok _ => .isFalse (fun hh => Except.noConfusion hh)
  | .ok _, .error _ => .isFalse (fun hh => Except.noConfusion hh)

/-- The numeric value of a decimal digit character, `none` on a non-digit. -/
def digitVal (c : Char) : Option Nat :=
  if c.isDigit then some (c.toNat - Char.toNat '0') else none

/-- Left fold of decimal digits into a number; fails on any non-digit. -/
def parseDigitsAux (acc : Nat) : List Char → Option Nat
  | [] => some acc
  | c :: cs =>
    match digitVal c with
    | some d => parseDigitsAux (acc * 10 + d) cs
    | none => none

/-- The value of a non-empty all-digit decimal string, `none` otherwise. -/
def decimalValue? (s : String) : Option Nat :=
  match s.toList with
  | [] => none
  | c :: cs => parseDigitsAux 0 (c :: cs)

/-- One word is 64 bits: values of the `u64` parse target are below this. -/
def u64Bound : Nat := 2 ^ 64

/-- Whether a string parses as a `u64`: non-empty, all decimal digits, and
the denoted value fits in 64 bits. -/
def u64Parseable (s : String) : Bool :=
  match decimalValue? s with
  | some n => n < u64Bound
  | none => false

/-- Splits a character list at the first dot, when one is present. -/
def splitOnDot : List Char → List Char × Option (List Char)
  | [] => ([], none)
  | c :: cs =>
    if c = '.' then ([], some cs)
    else
      let r := splitOnDot cs
      (c :: r.1, r.2)

/-- The exact rational value of a finite decimal literal: an optional sign,
a non-empty integer digit part, and an optional fractional digit part after
a dot. Returns `none` on anything else. -/
def parseDecimal? (s : String) : Option ℚ :=
  let signed : Bool × List Char :=
    match s.toList with
    | '-' :: cs => (true, cs)
    | '+' :: cs => (false, cs)
    | cs => (false, cs)
  let parts := splitOnDot signed.2
  match parts.1 with
  | [] => none
  | c :: cs =>
    match parseDigitsAux 0 (c :: cs) with
    | none => none
    | some ip =>
      match parts.2 with
      | none => some (if signed.1 then -(ip : ℚ) else (ip : ℚ))
      | some fracDigits =>
        match parseDigitsAux 0 fracDigits with
        | none => none
        | some fp =>
          let v : ℚ := (ip : ℚ) + (fp : ℚ) / ((10 : ℚ) ^ fracDigits.length)
          some (if signed.1 then -v else v)

/-- Whether a string parses as a finite `f64` decimal literal. -/
def f64Parseable (s : String) : Bool := (parseDecimal? s).isSome

/-- Modelled from the spec: `parse_env` of `models::config_options` (the
parsing helper itself is not under `src/`; only its call sites are). The
spec's design note describes it as a function taking a setting name and a
target numeric type and "returning either a value or a Misconfiguration
error", where "Parsing failure (setting absent, or present but not
parseable as the expected numeric type) is a fatal configuration error —
propagate immediately, do not substitute a default." This is the
instantiation at the `u64` target used by `get_max_price_interval`
(the call site annotates `let renew_interval: u64`): the value must be a
non-negative decimal integer fitting in 64 bits. -/
def parse_env_u64 (env : Env) (name : String) : Except Misconfiguration Nat :=
  match env name with
  | none => .error (.missing name)
  | some s =>
    match decimalValue? s with
    | none => .error (.malformed name s)
    | some n =>
      if n < u64Bound then .ok n else .error (.malformed name s)

/-- Modelled from the spec: `parse_env` of `models::config_options` at the
`f64` target used by `get_max_price_scale` — the setting is a
"floating-point-valued setting returned directly", absent or unparseable
values are a propagated Misconfiguration. Finite decimal literals are
embedded exactly as rationals; no arithmetic is done on the value. -/
def parse_env_f64 (env : Env) (name : String) : Except Misconfiguration ℚ :=
  match env name with
  | none => .error (.missing name)
  | some s =>
    match parseDecimal? s with
    | none => .error (.malformed name s)
    | some x => .ok x

/-- Name of the environment variable for the `max_gas_price` renewal
interval. -/
def MAX_GAS_PRICE_RENEWAL_INTERVAL_VAR : String :=
  "ETH_MAX_GAS_PRICE_RENEWAL_INTERVAL"

/-- Name of the environment variable for the `max_gas_price` scaling
multiplier. -/
def MAX_GAS_PRICE_SCALE_FACTOR_VAR : String :=
  "ETH_MAX_GAS_PRICE_SCALE_FACTOR"

/-- Which `parameters_impl` module was compiled in: the live one
(`#[cfg(not(test))]`, reads the environment) or the test one
(`#[cfg(test)]`, hard-coded constants). The choice is made once per build
and is constant over the whole process lifetime. -/
inductive SourceVariant where
  | live : SourceVariant
  | test : SourceVariant
deriving DecidableEq, Repr

namespace parameters_impl

/-- The compiled-in `parameters_impl::get_max_price_interval`:
the live variant reads and parses `ETH_MAX_GAS_PRICE_RENEWAL_INTERVAL`
as a `u64` and wraps it with `Duration::from_secs`; the test variant
returns `Duration::from_secs(0)` without touching the environment. -/
def get_max_price_interval :
    SourceVariant → Env → Except Misconfiguration Duration
  | .live, env =>
    (parse_env_u64 env MAX_GAS_PRICE_RENEWAL_INTERVAL_VAR).map Duration.from_secs
  | .test, _ => .ok (Duration.from_secs 0)

/-- The compiled-in `parameters_impl::get_max_price_scale`:
the live variant reads and parses `ETH_MAX_GAS_PRICE_SCALE_FACTOR` as an
`f64` and returns it directly; the test variant returns `1.5f64`
(exactly `3/2`) without touching the environment. -/
def get_max_price_scale :
    SourceVariant → Env → Except Misconfiguration ℚ
  | .live, env => parse_env_f64 env MAX_GAS_PRICE_SCALE_FACTOR_VAR
  | .test, _ => .ok (1.5 : ℚ)

end parameters_impl

/-- Public `get_max_price_interval`: delegates to the compiled-in
`parameters_impl::get_max_price_interval`, caching nothing. -/
def get_max_price_interval (v : SourceVariant) (env : Env) :
    Except Misconfiguration Duration :=
  parameters_impl.get_max_price_interval v env

/-- Public `get_max_price_scale`: delegates to the compiled-in
`parameters_impl::get_max_price_scale`, caching nothing. -/
def get_max_price_scale (v : SourceVariant) (env : Env) :
    Except Misconfiguration ℚ :=
  parameters_impl.get_max_price_scale v env

/-- Two successive calls of one accessor, each seeing the environment as it
stands at that call: the pair of their results. -/
def twoCalls {α : Type} (f : Env → α) (e1 e2 : Env) : α × α :=
  (f e1, f e2)

/-- An environment holding exactly one variable. -/
def singleVar (name value : String) : Env :=
  fun x => if x = name then some value else none

/-- An environment holding both settings of this module. -/
def bothVars (interval scale : String) : Env := fun x =>
  if x = MAX_GAS_PRICE_RENEWAL_INTERVAL_VAR then some interval
  else if x = MAX_GAS_PRICE_SCALE_FACTOR_VAR then some scale
  else none

/-- The canonical decimal digit string of a number, most significant digit
first; always non-empty. -/
def digitsOf (n : Nat) : List Char :=
  if n < 10 then [Nat.digitChar n]
  else digitsOf (n / 10) ++ [Nat.digitChar (n % 10)]
termination_by n
decreasing_by
  exact Nat.div_lt_self (by omega) (by omega)

/-- The canonical decimal string of a number. -/
def natRepr (n : Nat) : String := String.mk (digitsOf n)

/-! Helper lemmas about the digit parser. -/

theorem digitVal_digitChar {d : Nat} (h : d < 10) :
    digitVal (Nat.digitChar d) = some d := by
  interval_cases d <;> decide

theorem parseDigitsAux_append (l l' : List Char) : ∀ acc : Nat,
    parseDigitsAux acc (l ++ l')
      = (parseDigitsAux acc l).bind (fun a => parseDigitsAux a l') := by
  induction l with
  | nil => intro acc; rfl
  | cons c cs ih =>
    intro acc
    simp only [List.cons_append, parseDigitsAux]
    cases digitVal c with
    | none => rfl
    | some d => exact ih _

theorem parseDigitsAux_none_of_mem {c : Char} (hc : digitVal c = none) :
    ∀ (cs : List Char) (acc : Nat), c ∈ cs → parseDigitsAux acc cs = none := by
  intro cs
  induction cs with
  | nil => intro acc h; cases h
  | cons d ds ih =>
    intro acc h
    rcases List.mem_cons.mp h with rfl | hmem
    · simp [parseDigitsAux, hc]
    · simp only [parseDigitsAux]
      cases hd : digitVal d with
      | none => rfl
      | some e => exact ih _ hmem

theorem digitsOf_ne_nil (n : Nat) : digitsOf n ≠ [] := by
  rw [digitsOf]
  split
  · simp
  · simp

theorem parseDigitsAux_digitsOf (n : Nat) : ∀ acc : Nat,
    parseDigitsAux acc (digitsOf n)
      = some (acc * 10 ^ (digitsOf n).length + n) := by
  induction n using Nat.strong_induction_on with
  | _ n ih =>
    intro acc
    rw [digitsOf]
    by_cases h : n < 10
    · simp only [if_pos h, parseDigitsAux, digitVal_digitChar h]
      simp
    · simp only [if_neg h]
      have hlt : n / 10 < n := Nat.div_lt_self (by omega) (by omega)
      rw [parseDigitsAux_append, ih _ hlt acc]
      simp only [Option.bind_some, Option.some_bind, Option.bind,
        parseDigitsAux, digitVal_digitChar (Nat.mod_lt n (by omega))]
      have hmod : 10 * (n / 10) + n % 10 = n := Nat.div_add_mod n 10
      simp only [List.length_append, List.length_cons, List.length_nil,
        Nat.add_zero, pow_succ]
      congr 1
      calc (acc * 10 ^ (digitsOf (n / 10)).length + n / 10) * 10 + n % 10
          = acc * (10 ^ (digitsOf (n / 10)).length * 10)
              + (10 * (n / 10) + n % 10) := by ring
        _ = acc * (10 ^ (digitsOf (n / 10)).length * 10) + n := by rw [hmod]

theorem decimalValue_natRepr (n : Nat) : decimalValue? (natRepr n) = some n := by
  have hne := digitsOf_ne_nil n
  have hval := parseDigitsAux_digitsOf n 0
  unfold decimalValue? natRepr
  cases hd : digitsOf n with
  | nil => exact absurd hd hne
  | cons c cs =>
    rw [hd] at hval
    simpa using hval

/-! Characterization lemmas unfolding the accessors one step at a time. -/

theorem live_interval_eq_map (env : Env) :
    get_max_price_interval .live env
      = (parse_env_u64 env MAX_GAS_PRICE_RENEWAL_INTERVAL_VAR).map
          Duration.from_secs := rfl

theorem live_scale_eq_parse (env : Env) :
    get_max_price_scale .live env
      = parse_env_f64 env MAX_GAS_PRICE_SCALE_FACTOR_VAR := rfl

theorem parse_env_u64_of_none (env : Env) (name : String)
    (h : env name = none) :
    parse_env_u64 env name = .error (.missing name) := by
  unfold parse_env_u64
  rw [h]

theorem parse_env_u64_of_some (env : Env) (name s : String)
    (h : env name = some s) :
    parse_env_u64 env name
      = (match decimalValue? s with
        | none => .error (.malformed name s)
        | some n =>
          if n < u64Bound then .ok n
          else .error (.malformed name s)) := by
  unfold parse_env_u64
  rw [h]

theorem parse_env_f64_of_none (env : Env) (name : String)
    (h : env name = none) :
    parse_env_f64 env name = .error (.missing name) := by
  unfold parse_env_f64
  rw [h]

theorem parse_env_f64_of_some (env : Env) (name s : String)
    (h : env name = some s) :
    parse_env_f64 env name
      = (match parseDecimal? s with
        | none => .error (.malformed name s)
        | some x => .ok x) := by
  unfold parse_env_f64
  rw [h]

end GasAdjusterParams

namespace GasAdjusterParams

/-- C1: under the `#[cfg(test)]` (Fixed) implementation, whatever the
environment, `get_max_price_interval` returns the zero duration and
`get_max_price_scale` returns exactly 1.5. -/
theorem fixed_source_constants (env : Env) :
    get_max_price_interval .test env = .ok (Duration.from_secs 0) ∧
    get_max_price_scale .test env = .ok (1.5 : ℚ) :=
  ⟨rfl, rfl⟩

/-- C2: under the Live implementation, whenever the renewal-interval
environment variable parses as the non-negative integer `n`,
`get_max_price_interval` returns a duration of exactly `n` whole seconds. -/
theorem live_interval_returns_parsed_seconds (env : Env) (n : Nat)
    (h : parse_env_u64 env MAX_GAS_PRICE_RENEWAL_INTERVAL_VAR = .ok n) :
    get_max_price_interval .live env = .ok (Duration.from_secs n) := by
  simp [get_max_price_interval, parameters_impl.get_max_price_interval, h,
    Except.map]

theorem live_interval_returns_parsed_seconds_witness :
    get_max_price_interval .live
        (singleVar MAX_GAS_PRICE_RENEWAL_INTERVAL_VAR "30")
      = .ok (Duration.from_secs 30) :=
  live_interval_returns_parsed_seconds _ 30 (by decide)

/-- C3: under the Live implementation, whenever the scale-factor
environment variable parses as the number `x`, `get_max_price_scale`
returns `x` unchanged — no validation, clamping or transformation, also
for zero or negative `x`. -/
theorem live_scale_returns_parsed_value (env : Env) (x : ℚ)
    (h : parse_env_f64 env MAX_GAS_PRICE_SCALE_FACTOR_VAR = .ok x) :
    get_max_price_scale .live env = .ok x := h

theorem live_scale_returns_parsed_value_witness :
    get_max_price_scale .live
        (singleVar MAX_GAS_PRICE_SCALE_FACTOR_VAR "-2.5")
      = .ok (-5 / 2 : ℚ) :=
  live_scale_returns_parsed_value _ _ (by
    simp +decide [parse_env_f64, singleVar, parseDecimal?, splitOnDot,
      parseDigitsAux, digitVal]
    norm_num)

/-- C4: under the Live implementation, when the required variable is
absent or its value does not parse at the expected numeric type, the
corresponding accessor propagates a `Misconfiguration` error and never
returns a substituted value. -/
theorem fatal_on_missing_or_malformed (env : Env) :
    ((∀ s, env MAX_GAS_PRICE_RENEWAL_INTERVAL_VAR = some s →
        u64Parseable s = false) →
      ∃ e, get_max_price_interval .live env = .error e) ∧
    ((∀ s, env MAX_GAS_PRICE_SCALE_FACTOR_VAR = some s →
        f64Parseable s = false) →
      ∃ e, get_max_price_scale .live env = .error e) := by
  constructor
  · intro hbad
    rw [live_interval_eq_map]
    cases henv : env MAX_GAS_PRICE_RENEWAL_INTERVAL_VAR with
    | none => rw [parse_env_u64_of_none env _ henv]; exact ⟨_, rfl⟩
    | some s =>
      rw [parse_env_u64_of_some env _ s henv]
      have hs := hbad s henv
      unfold u64Parseable at hs
      cases hv : decimalValue? s with
      | none => exact ⟨_, rfl⟩
      | some n =>
        rw [hv] at hs
        simp only [decide_eq_false_iff_not, Nat.not_lt] at hs
        show ∃ e, Except.map Duration.from_secs
          (if n < u64Bound then Except.ok n
            else Except.error (Misconfiguration.malformed
              MAX_GAS_PRICE_RENEWAL_INTERVAL_VAR s)) = Except.error e
        rw [if_neg (Nat.not_lt.mpr hs)]
        exact ⟨_, rfl⟩
  · intro hbad
    rw [live_scale_eq_parse]
    cases henv : env MAX_GAS_PRICE_SCALE_FACTOR_VAR with
    | none => rw [parse_env_f64_of_none env _ henv]; exact ⟨_, rfl⟩
    | some s =>
      rw [parse_env_f64_of_some env _ s henv]
      have hs := hbad s henv
      unfold f64Parseable at hs
      cases hv : parseDecimal? s with
      | none => exact ⟨_, rfl⟩
      | some x => rw [hv] at hs; simp at hs

theorem fatal_on_missing_or_malformed_witness :
    (∃ e, get_max_price_interval .live (fun _ => none) = .error e) ∧
    (∃ e, get_max_price_scale .live (fun _ => none) = .error e) :=
  ⟨(fatal_on_missing_or_malformed (fun _ => none)).1
      (fun _ h => Option.noConfusion h),
   (fatal_on_missing_or_malformed (fun _ => none)).2
      (fun _ h => Option.noConfusion h)⟩

/-- C5: no caching across calls — each call's result is a function of the
backing source's state at that call alone, so when the environment changes
between two calls the second call returns the value parsed from the new
environment, whatever the first environment held. -/
theorem no_caching_freshness (e1 e2 : Env) (n : Nat) (x : ℚ)
    (hn : parse_env_u64 e2 MAX_GAS_PRICE_RENEWAL_INTERVAL_VAR = .ok n)
    (hx : parse_env_f64 e2 MAX_GAS_PRICE_SCALE_FACTOR_VAR = .ok x) :
    (twoCalls (get_max_price_interval .live) e1 e2).2
        = .ok (Duration.from_secs n) ∧
    (twoCalls (get_max_price_scale .live) e1 e2).2 = .ok x := by
  refine ⟨?_, hx⟩
  show (parse_env_u64 e2 MAX_GAS_PRICE_RENEWAL_INTERVAL_VAR).map
    Duration.from_secs = _
  rw [hn]
  rfl

theorem no_caching_freshness_witness :
    (twoCalls (get_max_price_interval .live)
        (bothVars "10" "1.0") (bothVars "30" "2.0")).2
      = .ok (Duration.from_secs 30) ∧
    (twoCalls (get_max_price_scale .live)
        (bothVars "10" "1.0") (bothVars "30" "2.0")).2 = .ok (2 : ℚ) :=
  no_caching_freshness _ _ 30 2 (by decide) (by
    simp +decide [parse_env_f64, bothVars, parseDecimal?, splitOnDot,
      parseDigitsAux, digitVal])

/-- C6: idempotence — with the backing source unchanged, two successive
calls to the same accessor return equal values. -/
theorem idempotent_accessors (v : SourceVariant) (env : Env) :
    (twoCalls (get_max_price_interval v) env env).1
        = (twoCalls (get_max_price_interval v) env env).2 ∧
    (twoCalls (get_max_price_scale v) env env).1
        = (twoCalls (get_max_price_scale v) env env).2 :=
  ⟨rfl, rfl⟩

/-- C7: the public accessors are pure delegations to the single
compiled-in `parameters_impl` variant, with no value transformation in
the public layer; the variant is one fixed `SourceVariant` for all calls
of the process. -/
theorem public_accessors_delegate (v : SourceVariant) (env : Env) :
    get_max_price_interval v env
        = parameters_impl.get_max_price_interval v env ∧
    get_max_price_scale v env
        = parameters_impl.get_max_price_scale v env :=
  ⟨rfl, rfl⟩

/-- C8: under the Live implementation the renewal interval is parsed
strictly as a non-negative integer: any value containing a minus sign or
a decimal point (such as "-1" or "1.5") is a misconfiguration and makes
`get_max_price_interval` fail rather than round, truncate or accept it. -/
theorem live_interval_rejects_sign_and_fraction (env : Env) (s : String)
    (hs : env MAX_GAS_PRICE_RENEWAL_INTERVAL_VAR = some s)
    (hc : '-' ∈ s.toList ∨ '.' ∈ s.toList) :
    get_max_price_interval .live env
      = .error (.malformed MAX_GAS_PRICE_RENEWAL_INTERVAL_VAR s) := by
  have hval : decimalValue? s = none := by
    unfold decimalValue?
    cases hd : s.toList with
    | nil => rfl
    | cons c cs =>
      rcases hc with hmem | hmem <;> rw [hd] at hmem
      · exact parseDigitsAux_none_of_mem (by decide) _ _ hmem
      · exact parseDigitsAux_none_of_mem (by decide) _ _ hmem
  rw [live_interval_eq_map, parse_env_u64_of_some env _ s hs, hval]
  rfl

theorem live_interval_rejects_sign_and_fraction_witness :
    get_max_price_interval .live
        (singleVar MAX_GAS_PRICE_RENEWAL_INTERVAL_VAR "-1")
      = .error (.malformed MAX_GAS_PRICE_RENEWAL_INTERVAL_VAR "-1") :=
  live_interval_rejects_sign_and_fraction _ "-1" (by
      simp [singleVar]) (Or.inl (by decide))

/-- C9: noninterference of the Fixed (test) implementation — both
accessors' results are independent of the environment: any two
environments, including empty or malformed ones, give equal results. -/
theorem fixed_source_noninterference (e1 e2 : Env) :
    get_max_price_interval .test e1 = get_max_price_interval .test e2 ∧
    get_max_price_scale .test e1 = get_max_price_scale .test e2 :=
  ⟨rfl, rfl⟩

/-- C10: range of the live renewal interval — the setting is parsed as an
unsigned 64-bit integer: every value from 0 to 2^64 - 1 seconds inclusive
is accepted and returned as that many seconds, and any value of 2^64 or
more is a misconfiguration failure. -/
theorem live_interval_u64_range (n : Nat) :
    (n < 2 ^ 64 → ∀ env : Env,
        env MAX_GAS_PRICE_RENEWAL_INTERVAL_VAR = some (natRepr n) →
        get_max_price_interval .live env = .ok (Duration.from_secs n)) ∧
    (2 ^ 64 ≤ n → ∀ env : Env,
        env MAX_GAS_PRICE_RENEWAL_INTERVAL_VAR = some (natRepr n) →
        get_max_price_interval .live env
          = .error (.malformed MAX_GAS_PRICE_RENEWAL_INTERVAL_VAR
              (natRepr n))) := by
  constructor
  · intro hlt env henv
    rw [live_interval_eq_map, parse_env_u64_of_some env _ _ henv,
      decimalValue_natRepr]
    show Except.map Duration.from_secs
      (if n < u64Bound then Except.ok n
        else Except.error (Misconfiguration.malformed
          MAX_GAS_PRICE_RENEWAL_INTERVAL_VAR (natRepr n))) = _
    rw [if_pos (show n < u64Bound from hlt)]
    rfl
  · intro hge env henv
    rw [live_interval_eq_map, parse_env_u64_of_some env _ _ henv,
      decimalValue_natRepr]
    show Except.map Duration.from_secs
      (if n < u64Bound then Except.ok n
        else Except.error (Misconfiguration.malformed
          MAX_GAS_PRICE_RENEWAL_INTERVAL_VAR (natRepr n))) = _
    rw [if_neg (show ¬n < u64Bound by unfold u64Bound; omega)]
    rfl

theorem live_interval_u64_range_witness :
    get_max_price_interval .live
        (singleVar MAX_GAS_PRICE_RENEWAL_INTERVAL_VAR (natRepr 30))
      = .ok (Duration.from_secs 30) ∧
    get_max_price_interval .live
        (singleVar MAX_GAS_PRICE_RENEWAL_INTERVAL_VAR (natRepr (2 ^ 64)))
      = .error (.malformed MAX_GAS_PRICE_RENEWAL_INTERVAL_VAR
          (natRepr (2 ^ 64))) :=
  ⟨(live_interval_u64_range 30).1 (by norm_num) _ (by simp [singleVar]),
   (live_interval_u64_range (2 ^ 64)).2 (le_refl _) _ (by simp [singleVar])⟩

end GasAdjusterParams
